import Mathlib

/-!
Verification of the BrianGroth/Calendar repository's overlay ingestion and
month-grid composition engine against its natural-language specification.

The JavaScript source is shallowly embedded: numbers are `Int` (with
`Int.tmod` for the JS `%` operator and `Int.fdiv` for `Math.floor(a / b)`),
`Date` instants are seconds since the Unix epoch, the host timezone is a
fixed UTC offset in minutes (`tz`), and `crypto.getRandomValues` is an
explicit byte stream `g : Nat → Nat` consumed at an explicit offset.
-/

namespace Cal

/-! ### Host `Date` arithmetic (proleptic Gregorian calendar)

The JavaScript `Date` object is a host facility; it is embedded with the
standard civil-calendar conversion (days-from-civil and its inverse).
`new Date(y, mIdx, d, hh, mi, ss)` normalizes out-of-range fields
arithmetically, which the linear formulas below reproduce.
-/

/-- Days from the civil date `(y, m, d)` (month `1..12`, day may be any
integer and rolls over linearly) to 1970-01-01. -/
def daysFromCivil (y m d : Int) : Int :=
  let y2 := if m ≤ 2 then y - 1 else y
  let era := Int.fdiv y2 400
  let yoe := y2 - era * 400
  let mp := if 2 < m then m - 3 else m + 9
  let doy := Int.fdiv (153 * mp + 2) 5 + d - 1
  let doe := yoe * 365 + Int.fdiv yoe 4 - Int.fdiv yoe 100 + doy
  era * 146097 + doe - 719468

/-- Inverse of `daysFromCivil`: civil `(year, month, day)` of a day number. -/
def civilFromDays (z0 : Int) : Int × Int × Int :=
  let z := z0 + 719468
  let era := Int.fdiv z 146097
  let doe := z - era * 146097
  let yoe := Int.fdiv (doe - Int.fdiv doe 1460 + Int.fdiv doe 36524 - Int.fdiv doe 146096) 365
  let y := yoe + era * 400
  let doy := doe - (365 * yoe + Int.fdiv yoe 4 - Int.fdiv yoe 100)
  let mp := Int.fdiv (5 * doy + 2) 153
  let d := doy - Int.fdiv (153 * mp + 2) 5 + 1
  let m := if mp < 10 then mp + 3 else mp - 9
  (if m ≤ 2 then y + 1 else y, m, d)

/-- Epoch seconds of `Date.UTC(y, mIdx, d, hh, mi, ss)` (0-based month
index, normalized the way JS does). -/
def jsDateUTC (y mIdx d hh mi ss : Int) : Int :=
  86400 * daysFromCivil (y + Int.fdiv mIdx 12) (mIdx % 12 + 1) d
    + 3600 * hh + 60 * mi + ss

/-- Epoch seconds of `new Date(y, mIdx, d, hh, mi, ss)` — wall-clock fields
in the host timezone, which sits `tz` minutes east of UTC. -/
def jsDateLocal (tz y mIdx d hh mi ss : Int) : Int :=
  jsDateUTC y mIdx d hh mi ss - 60 * tz

/-- `Date.prototype.getDay` of the civil date `(y, m, d)` (month `1..12`):
0 = Sunday .. 6 = Saturday.  1970-01-01 was a Thursday. -/
def dow (y m d : Int) : Int :=
  (daysFromCivil y m d + 4) % 7

/-- Leap-year rule of the Gregorian calendar (as used by `Date`). -/
def isLeap (y : Int) : Bool :=
  (y % 4 = 0 && y % 100 ≠ 0) || y % 400 = 0

/-- Number of days in month `m` (`1..12`) of year `y`; embeds
`new Date(y, m, 0).getDate()`. -/
def daysInMonth (y m : Int) : Int :=
  if m = 2 then (if isLeap y then 29 else 28)
  else if m = 4 ∨ m = 6 ∨ m = 9 ∨ m = 11 then 30
  else 31

/-- `String.prototype.padStart(2, "0")` on a decimal number. -/
def pad2 (n : Int) : String :=
  if 0 ≤ n ∧ n < 10 then "0" ++ toString n else toString n

/-- `toISODateLocal` from app.js: `YYYY-MM-DD` of an instant's local civil
date. -/
def toISODateLocal (tz t : Int) : String :=
  let fields := civilFromDays (Int.fdiv (t + 60 * tz) 86400)
  toString fields.1 ++ "-" ++ pad2 fields.2.1 ++ "-" ++ pad2 fields.2.2

/-- `formatTimeHHMM` from app.js: `HH:MM` of an instant's local wall-clock
time. -/
def formatTimeHHMM (tz t : Int) : String :=
  let secs := (t + 60 * tz) % 86400
  pad2 (Int.fdiv secs 3600) ++ ":" ++ pad2 (Int.fdiv (secs % 3600) 60)

example : daysFromCivil 1970 1 1 = 0 := by decide
example : dow 1970 1 1 = 4 := by decide
example : dow 2024 1 1 = 1 := by decide
example : civilFromDays 0 = (1970, 1, 1) := by decide
example : civilFromDays (daysFromCivil 2024 7 31) = (2024, 7, 31) := by decide

/-! ### Easter computation (`getEasterDate`, main.js lines 11–27)

The source returns `new Date(year, month - 1, day)`; the embedding returns
the computed `(month, day)` pair.  `Math.floor(a / b)` is `Int.fdiv` and
the JS `%` is `Int.tmod`.
-/

/-- `getEasterDate` from main.js: month (1-based) and day of Easter Sunday
of `year`, anonymous Gregorian algorithm. -/
def getEasterDate (year : Int) : Int × Int :=
  let a := Int.tmod year 19
  let b := Int.fdiv year 100
  let c := Int.tmod year 100
  let d := Int.fdiv b 4
  let e := Int.tmod b 4
  let f := Int.fdiv (b + 8) 25
  let g := Int.fdiv (b - f + 1) 3
  let h := Int.tmod (19 * a + b - d - g + 15) 30
  let i := Int.fdiv c 4
  let k := Int.tmod c 4
  let l := Int.tmod (32 + 2 * e + 2 * i - h - k) 7
  let m := Int.fdiv (a + 11 * h + 22 * l) 451
  let month := Int.fdiv (h + l - 7 * m + 114) 31
  let day := Int.tmod (h + l - 7 * m + 114) 31 + 1
  (month, day)

/-- Decidable check that Easter of `year` lies between March 22 and
April 25 inclusive and is a valid day of its month (so the `Date`
constructed by the source keeps year `year`). -/
def easterInRange (year : Int) : Bool :=
  let e := getEasterDate year
  ((e.1 = 3 && 22 ≤ e.2 && e.2 ≤ 31) || (e.1 = 4 && 1 ≤ e.2 && e.2 ≤ 25))
    && 1 ≤ e.2 && e.2 ≤ daysInMonth year e.1

theorem easterInRange_all :
    ((List.range 151).all fun i => easterInRange (1950 + (i : Int))) = true := by
  decide

/-! ### Nth weekday of month (`getNthWeekdayOfMonth`, main.js lines 30–43)

`new Date(year, monthIndex, 1)` and `new Date(year, monthIndex + 1, 0)` are
embedded for calendar month indices `0..11` as the civil first day of month
`monthIndex + 1` and its last day.
-/

/-- `getNthWeekdayOfMonth` from main.js: day of month of the `n`-th
occurrence of `weekday` (`0 = Sunday .. 6 = Saturday`) for `n > 0`, or of
the last occurrence counted from the end of the month otherwise. -/
def getNthWeekdayOfMonth (year monthIndex weekday n : Int) : Int :=
  if 0 < n then
    let firstWeekday := dow year (monthIndex + 1) 1
    1 + Int.tmod (weekday - firstWeekday + 7) 7 + 7 * (n - 1)
  else
    let lastDay := daysInMonth year (monthIndex + 1)
    let lastWeekday := dow year (monthIndex + 1) lastDay
    lastDay - Int.tmod (lastWeekday - weekday + 7) 7

theorem daysFromCivil_linear (y m d : Int) :
    daysFromCivil y m d = daysFromCivil y m 0 + d := by
  simp only [daysFromCivil]
  ring

theorem dow_linear (y m d : Int) : dow y m d = (dow y m 1 + (d - 1)) % 7 := by
  unfold dow
  rw [daysFromCivil_linear y m d, daysFromCivil_linear y m 1]
  omega

theorem dow_bounds (y m d : Int) : 0 ≤ dow y m d ∧ dow y m d < 7 := by
  unfold dow
  omega

theorem daysInMonth_bounds (y m : Int) :
    28 ≤ daysInMonth y m ∧ daysInMonth y m ≤ 31 := by
  unfold daysInMonth
  split
  · split <;> omega
  · split <;> omega

/-! ### Month-grid padding (`renderGrid`, app.js lines 362–383)

Only the cell-count arithmetic is modelled: the number of leading blanks
and the total slot count of the Monday-first grid.
-/

/-- `x || 7` for a number `x`: JS falls back to 7 exactly when `x` is 0
(the only falsy value arising here). -/
def jsOrSeven (x : Int) : Int := if x = 0 then 7 else x

/-- `leading` in `renderGrid`: `(first.getDay() + 6) % 7` converts the
Sunday-based weekday of day 1 to its Monday-first column index. -/
def leadingBlanks (year monthIndex : Int) : Int :=
  Int.tmod (dow year (monthIndex + 1) 1 + 6) 7

/-- `totalCells` in `renderGrid`:
`leading + daysInMonth + (7 - ((leading + daysInMonth) % 7 || 7))`. -/
def totalCells (year monthIndex : Int) : Int :=
  let leading := leadingBlanks year monthIndex
  let dim := daysInMonth year (monthIndex + 1)
  leading + dim + (7 - jsOrSeven (Int.tmod (leading + dim) 7))

/-! ### Holiday maps (`getUSHolidays` / `getNLHolidays`, main.js lines 46–84)

A JS object with string keys is embedded as an association list where a
later assignment shadows an earlier one (new pairs are consed in front and
lookup takes the first hit).
-/

/-- JS object used as a string-keyed map. -/
abbrev HMap := List (String × String)

/-- `obj[k] = v` — a later assignment wins over an earlier one. -/
def hput (m : HMap) (k v : String) : HMap := (k, v) :: m

/-- `obj[k]` — `none` plays the role of `undefined`. -/
def hget (m : HMap) (k : String) : Option String :=
  (m.find? fun p => p.1 == k).map (fun p => p.2)

/-- Template-literal key `` `${m}-${d}` `` used by the holiday maps. -/
def hkey (m d : Int) : String := toString m ++ "-" ++ toString d

/-- JS truthiness of `obj[k]`: a present, non-empty string. -/
def truthyS : Option String → Bool
  | some s => !(s == "")
  | none => false

/-- `getUSHolidays` from main.js (assignments in source order). -/
def getUSHolidays (year : Int) : HMap :=
  let h := hput [] (hkey 1 1) "New Year’s Day"
  let h := hput h (hkey 1 (getNthWeekdayOfMonth year 0 1 3)) "Martin Luther King Jr. Day"
  let h := hput h (hkey 2 (getNthWeekdayOfMonth year 1 1 3)) "Presidents’ Day"
  let h := hput h (hkey 5 (getNthWeekdayOfMonth year 4 1 (-1))) "Memorial Day"
  let h := hput h (hkey 6 19) "Juneteenth"
  let h := hput h (hkey 7 4) "Independence Day"
  let h := hput h (hkey 9 (getNthWeekdayOfMonth year 8 1 1)) "Labor Day"
  let h := hput h (hkey 10 (getNthWeekdayOfMonth year 9 1 2)) "Columbus Day"
  let h := hput h (hkey 11 11) "Veterans Day"
  let h := hput h (hkey 11 (getNthWeekdayOfMonth year 10 4 4)) "Thanksgiving"
  hput h (hkey 12 25) "Christmas Day"

/-- Civil `(year, month, day)` of Easter Sunday shifted by `offset` days —
embeds `new Date(easter)` followed by `setDate(getDate() + offset)`. -/
def easterShift (year offset : Int) : Int × Int × Int :=
  let e := getEasterDate year
  civilFromDays (daysFromCivil year e.1 e.2 + offset)

/-- `getNLHolidays` from main.js (assignments in source order). -/
def getNLHolidays (year : Int) : HMap :=
  let h := hput [] (hkey 1 1) "Nieuwjaarsdag"
  let gf := easterShift year (-2)
  let h := hput h (hkey gf.2.1 gf.2.2) "Goede Vrijdag"
  let em := easterShift year 1
  let h := hput h (hkey em.2.1 em.2.2) "Tweede Paasdag"
  let asc := easterShift year 39
  let h := hput h (hkey asc.2.1 asc.2.2) "Hemelvaart"
  let wm := easterShift year 50
  let h := hput h (hkey wm.2.1 wm.2.2) "Tweede Pinksterdag"
  let h := hput h (hkey 4 27) "Koningsdag"
  let h := hput h (hkey 5 5) "Bevrijdingsdag"
  let h := hput h (hkey 12 25) "Eerste Kerstdag"
  hput h (hkey 12 26) "Tweede Kerstdag"

/-- The per-day holiday-name merge inside `generateMonths` (main.js lines
96–105): US name first, then the NL name appended with a `" / "` separator
when both are truthy. -/
def mergedHolidayName (showUSHolidays showNLHolidays : Bool)
    (year monthIndex d : Int) : Option String :=
  let usHolidays := if showUSHolidays then getUSHolidays year else []
  let nlHolidays := if showNLHolidays then getNLHolidays year else []
  let key := hkey (monthIndex + 1) d
  let h1 : Option String :=
    if showUSHolidays && truthyS (hget usHolidays key) then hget usHolidays key
    else none
  if showNLHolidays && truthyS (hget nlHolidays key) then
    if truthyS h1 then some (h1.getD "" ++ " / " ++ (hget nlHolidays key).getD "")
    else hget nlHolidays key
  else h1

/-! ### Claim theorems: C3, C4, C8, C9 -/

/-- C3: for every year in `[1950, 2100]`, `getEasterDate` yields a valid
date of that year lying between March 22 and April 25 inclusive. -/
theorem C3_easterDate_in_range (y : Int) (h1 : 1950 ≤ y) (h2 : y ≤ 2100) :
    (1 ≤ (getEasterDate y).2 ∧ (getEasterDate y).2 ≤ daysInMonth y (getEasterDate y).1) ∧
    (((getEasterDate y).1 = 3 ∧ 22 ≤ (getEasterDate y).2) ∨
      ((getEasterDate y).1 = 4 ∧ (getEasterDate y).2 ≤ 25)) := by
  have hi : (y - 1950).toNat < 151 := by omega
  have hall := List.all_eq_true.mp easterInRange_all ((y - 1950).toNat)
    (List.mem_range.mpr hi)
  have hy : 1950 + (((y - 1950).toNat : Nat) : Int) = y := by omega
  rw [hy] at hall
  unfold easterInRange at hall
  simp only [Bool.and_eq_true, Bool.or_eq_true, decide_eq_true_eq] at hall
  tauto

/-- Witness for C3 at the concrete year 2024 (Easter: March 31). -/
theorem C3_easterDate_witness :
    (1 ≤ (getEasterDate 2024).2 ∧
      (getEasterDate 2024).2 ≤ daysInMonth 2024 (getEasterDate 2024).1) ∧
    (((getEasterDate 2024).1 = 3 ∧ 22 ≤ (getEasterDate 2024).2) ∨
      ((getEasterDate 2024).1 = 4 ∧ (getEasterDate 2024).2 ≤ 25)) :=
  C3_easterDate_in_range 2024 (by norm_num) (by norm_num)

/-- C4: for `n > 0`, `getNthWeekdayOfMonth` returns
`1 + ((w - weekday-of-the-1st) mod 7) + 7 * (n - 1)`; for `n = -1` it
returns the day of the month's last occurrence of `w`; and the two
concrete instances from the spec hold. -/
theorem C4_nthWeekday_spec (year monthIndex weekday : Int)
    (hw0 : 0 ≤ weekday) (hw6 : weekday ≤ 6) :
    (∀ n : Int, 0 < n →
      getNthWeekdayOfMonth year monthIndex weekday n
        = 1 + (weekday - dow year (monthIndex + 1) 1) % 7 + 7 * (n - 1)) ∧
    (dow year (monthIndex + 1) (getNthWeekdayOfMonth year monthIndex weekday (-1))
        = weekday ∧
      1 ≤ getNthWeekdayOfMonth year monthIndex weekday (-1) ∧
      getNthWeekdayOfMonth year monthIndex weekday (-1)
        ≤ daysInMonth year (monthIndex + 1) ∧
      ∀ d : Int, getNthWeekdayOfMonth year monthIndex weekday (-1) < d →
        d ≤ daysInMonth year (monthIndex + 1) →
        dow year (monthIndex + 1) d ≠ weekday) ∧
    getNthWeekdayOfMonth 2024 0 1 3 = 15 ∧
    getNthWeekdayOfMonth 2024 4 1 (-1) = 27 := by
  have hD1 := dow_bounds year (monthIndex + 1) 1
  refine ⟨?_, ?_, by decide, by decide⟩
  · intro n hn
    simp only [getNthWeekdayOfMonth, if_pos hn]
    rw [Int.tmod_eq_emod (by omega) (by omega)]
    omega
  · have hL := daysInMonth_bounds year (monthIndex + 1)
    have hW := dow_bounds year (monthIndex + 1) (daysInMonth year (monthIndex + 1))
    have hWlin := dow_linear year (monthIndex + 1) (daysInMonth year (monthIndex + 1))
    have hr : getNthWeekdayOfMonth year monthIndex weekday (-1)
        = daysInMonth year (monthIndex + 1)
          - (dow year (monthIndex + 1) (daysInMonth year (monthIndex + 1))
              - weekday + 7) % 7 := by
      simp only [getNthWeekdayOfMonth, if_neg (show ¬(0 : Int) < -1 by omega)]
      rw [Int.tmod_eq_emod (by omega) (by omega)]
    refine ⟨?_, by omega, by omega, ?_⟩
    · rw [hr, dow_linear]
      omega
    · intro d hd1 hd2 hc
      rw [dow_linear] at hc
      rw [hr] at hd1
      omega

/-- Witness for C4 at the spec's concrete inputs (3rd Monday of January
2024 and last Monday of May 2024). -/
theorem C4_nthWeekday_witness :
    getNthWeekdayOfMonth 2024 0 1 3
        = 1 + ((1 : Int) - dow 2024 (0 + 1) 1) % 7 + 7 * (3 - 1) ∧
      dow 2024 (4 + 1) (getNthWeekdayOfMonth 2024 4 1 (-1)) = 1 :=
  ⟨(C4_nthWeekday_spec 2024 0 1 (by norm_num) (by norm_num)).1 3 (by norm_num),
   (C4_nthWeekday_spec 2024 4 1 (by norm_num) (by norm_num)).2.1.1⟩

/-- C8: leading blanks equal the Monday-first weekday index of day 1 (a
month starting on Wednesday gets exactly 2), the total slot count is a
multiple of 7, and no trailing blanks are added when leading + days is
already a multiple of 7. -/
theorem C8_grid_padding (year monthIndex : Int)
    (hm0 : 0 ≤ monthIndex) (hm1 : monthIndex ≤ 11) :
    leadingBlanks year monthIndex = (dow year (monthIndex + 1) 1 + 6) % 7 ∧
    (dow year (monthIndex + 1) 1 = 3 → leadingBlanks year monthIndex = 2) ∧
    totalCells year monthIndex % 7 = 0 ∧
    ((leadingBlanks year monthIndex + daysInMonth year (monthIndex + 1)) % 7 = 0 →
      totalCells year monthIndex
        = leadingBlanks year monthIndex + daysInMonth year (monthIndex + 1)) := by
  have hd := dow_bounds year (monthIndex + 1) 1
  have hdim := daysInMonth_bounds year (monthIndex + 1)
  have hlead : leadingBlanks year monthIndex = (dow year (monthIndex + 1) 1 + 6) % 7 := by
    unfold leadingBlanks
    rw [Int.tmod_eq_emod (by omega) (by omega)]
  have hlb : 0 ≤ leadingBlanks year monthIndex ∧ leadingBlanks year monthIndex < 7 := by
    rw [hlead]
    omega
  have htot : totalCells year monthIndex
      = leadingBlanks year monthIndex + daysInMonth year (monthIndex + 1)
        + (7 - jsOrSeven ((leadingBlanks year monthIndex
            + daysInMonth year (monthIndex + 1)) % 7)) := by
    simp only [totalCells]
    rw [Int.tmod_eq_emod (by omega) (by omega)]
  refine ⟨hlead, fun h => by rw [hlead, h]; decide, ?_, ?_⟩
  · rw [htot]
    unfold jsOrSeven
    split <;> omega
  · intro h
    rw [htot, h]
    unfold jsOrSeven
    simp

/-- Witness for C8 at May 2024, whose 1st is a Wednesday. -/
theorem C8_grid_padding_witness :
    (dow 2024 (4 + 1) 1 = 3 → leadingBlanks 2024 4 = 2) ∧
      totalCells 2024 4 % 7 = 0 :=
  ⟨(C8_grid_padding 2024 4 (by norm_num) (by norm_num)).2.1,
   (C8_grid_padding 2024 4 (by norm_num) (by norm_num)).2.2.1⟩

/-- C9: on a day where both the US and the NL holiday maps contain a
(non-empty) entry, the merged name with both overlays enabled is the US
name and the NL name joined by the `" / "` separator — neither entry
overwrites or suppresses the other. -/
theorem C9_holiday_merge (year monthIndex d : Int) (a b : String)
    (hus : hget (getUSHolidays year) (hkey (monthIndex + 1) d) = some a)
    (ha : a ≠ "")
    (hnl : hget (getNLHolidays year) (hkey (monthIndex + 1) d) = some b)
    (hb : b ≠ "") :
    mergedHolidayName true true year monthIndex d = some (a ++ " / " ++ b) := by
  unfold mergedHolidayName
  simp only [if_true, Bool.true_and, hus, hnl, truthyS, Option.getD_some]
  simp [ha, hb]

/-- Witness for C9 at January 1, 2024, a holiday in both maps. -/
theorem C9_holiday_merge_witness :
    mergedHolidayName true true 2024 0 1
      = some ("New Year’s Day" ++ " / " ++ "Nieuwjaarsdag") :=
  C9_holiday_merge 2024 0 1 "New Year’s Day" "Nieuwjaarsdag"
    (by decide) (by decide) (by decide) (by decide)

/-! ### JS primitives for the overlay pipeline

`Date` values flowing through the ICS parsers can be invalid (`new Date(NaN)`),
which is still a truthy object in JS; `JSDate` keeps that distinction.
-/

/-- A JS `Date` object: either an invalid date or an epoch-seconds instant. -/
inductive JSDate where
  | invalid : JSDate
  | valid : Int → JSDate
deriving DecidableEq, Repr

/-- `Number(s)` on the strings that reach it here: the empty string is 0,
a run of decimal digits is its value, anything else is `NaN` (`none`). -/
def jsNumber (s : String) : Option Int :=
  if s = "" then some 0
  else if s.toList.all (fun c => c.isDigit) then
    some ((s.toList.foldl (fun a c => a * 10 + (c.toNat - 48)) 0 : Nat) : Int)
  else none

/-- `s.slice(a, b)` for `0 ≤ a ≤ b`. -/
def jsSlice (s : String) (a b : Nat) : String :=
  String.mk ((s.toList.drop a).take (b - a))

/-- ASCII upper-casing of one character (`String.prototype.toUpperCase`
on the property names occurring here). -/
def upChar (c : Char) : Char :=
  if 'a' ≤ c ∧ c ≤ 'z' then Char.ofNat (c.toNat - 32) else c

/-- ASCII upper-casing of a char list. -/
def upperChars (l : List Char) : List Char := l.map upChar

/-- `s.startsWith(pre)`. -/
def jsStartsWith (s pre : String) : Bool := pre.toList.isPrefixOf s.toList

/-- Whether the last character of `s` is `c` (the `/Z$/`-style tests). -/
def lastCharIs (s : String) (c : Char) : Bool := s.toList.getLast? == some c

/-- Split at the first occurrence of `sep`: the part before it and, when
`sep` occurs, the part after it (`indexOf` plus two `slice`s, which is
also what `split(sep)` followed by `rest.join(sep)` computes). -/
def splitFirst (sep : Char) : List Char → List Char × Option (List Char)
  | [] => ([], none)
  | c :: rest =>
    if c = sep then ([], some rest)
    else
      let r := splitFirst sep rest
      (c :: r.1, r.2)

/-- `new Date(Date.UTC(y, m, d, hh, mi, ss))` with `NaN` propagation. -/
def mkUTCJS (oy om od ohh omi oss : Option Int) : JSDate :=
  match oy, om, od, ohh, omi, oss with
  | some y, some m, some d, some hh, some mi, some ss =>
    .valid (jsDateUTC y m d hh mi ss)
  | _, _, _, _, _, _ => .invalid

/-- `new Date(y, m, d, hh, mi, ss)` (local wall clock) with `NaN`
propagation. -/
def mkLocalJS (tz : Int) (oy om od ohh omi oss : Option Int) : JSDate :=
  match oy, om, od, ohh, omi, oss with
  | some y, some m, some d, some hh, some mi, some ss =>
    .valid (jsDateLocal tz y m d hh mi ss)
  | _, _, _, _, _, _ => .invalid

/-- Substring test on char lists (leftmost scan). -/
def containsSub : List Char → List Char → Bool
  | [], pat => pat.isEmpty
  | l@(_ :: rest), pat => pat.isPrefixOf l || containsSub rest pat

/-- `toISODateLocal` applied to a `Date` object (`NaN` fields print as
`NaN`). -/
def toISODateJS (tz : Int) : JSDate → String
  | .valid t => toISODateLocal tz t
  | .invalid => "NaN-NaN-NaN"

/-- `formatTimeHHMM` applied to a `Date` object. -/
def formatTimeJS (tz : Int) : JSDate → String
  | .valid t => formatTimeHHMM tz t
  | .invalid => "NaN:NaN"

/-! ### `uuid` (app.js lines 124–131)

`crypto.getRandomValues` is a byte stream `g` read at increasing offsets;
each call to `uuid` consumes one byte per `x`/`y` template position (31 in
total) and reports the next unused offset.
-/

/-- Lowercase hex digit, i.e. `v.toString(16)` for `v < 16`. -/
def hexDigit (n : Nat) : Char :=
  if n < 10 then Char.ofNat (48 + n) else Char.ofNat (87 + n)

/-- The v4 template string of `uuid`. -/
def uuidTemplate : List Char := "xxxxxxxx-xxxx-4xxx-yxxx-xxxxxxxxxxxx".toList

/-- Template replacement of `uuid`: `r = byte & 15`, `x ↦ r`,
`y ↦ (r & 0x3) | 0x8`, other characters kept. -/
def uuidChars (g : Nat → Nat) : Nat → List Char → List Char × Nat
  | off, [] => ([], off)
  | off, c :: cs =>
    if c = 'x' then
      let r := g off % 256 % 16
      let rec1 := uuidChars g (off + 1) cs
      (hexDigit r :: rec1.1, rec1.2)
    else if c = 'y' then
      let r := g off % 256 % 16
      let rec1 := uuidChars g (off + 1) cs
      (hexDigit (r % 4 + 8) :: rec1.1, rec1.2)
    else
      let rec1 := uuidChars g off cs
      (c :: rec1.1, rec1.2)

/-- `uuid()` from app.js: the generated string and the next stream offset. -/
def uuid (g : Nat → Nat) (off : Nat) : String × Nat :=
  let r := uuidChars g off uuidTemplate
  (String.mk r.1, r.2)

/-! ### Overlay events and `filterEventsToMonth` (app.js lines 80–87 and
169–185) -/

/-- A parsed ICS event as produced by `window.ICS.parseICS` and consumed by
`filterEventsToMonth` (`""` models an absent string field, matching JS
falsiness of both `undefined` and `""`). -/
structure ICSEvent where
  id : String := ""
  title : String := ""
  summary : String := ""
  start : JSDate := JSDate.invalid
  end_ : Option JSDate := none
  url : String := ""
  description : String := ""
deriving DecidableEq, Repr

/-- The overlay event shape built by `filterEventsToMonth`'s map step. -/
structure OverlayEvent where
  id : String
  title : String
  date : String
  startTime : String
  endTime : String
  notes : String
  url : String
  __overlay : Bool
deriving DecidableEq, Repr

/-- `monthStart(date)` from app.js: `Date.UTC(y, m, 1)` — the UTC first
instant of the request's local year/month. -/
def monthStartI (year monthIndex : Int) : Int := jsDateUTC year monthIndex 1 0 0 0

/-- `monthEnd(date)` from app.js: `Date.UTC(y, m + 1, 0, 23, 59, 59)` — the
last UTC second of the month's last day. -/
def monthEndI (year monthIndex : Int) : Int :=
  jsDateUTC year (monthIndex + 1) 0 23 59 59

/-- The filter callback of `filterEventsToMonth`: `s >= start && s <= end`
on instants (comparisons with an invalid date are `false`). -/
def keepsEvent (year monthIndex : Int) (e : ICSEvent) : Bool :=
  match e.start with
  | .invalid => false
  | .valid s => monthStartI year monthIndex ≤ s && s ≤ monthEndI year monthIndex

/-- The map callback of `filterEventsToMonth`: builds the overlay event,
synthesizing `id` with `uuid()` when the source event has none, and
reports the advanced random-stream offset. -/
def toOverlayEvent (tz : Int) (g : Nat → Nat) (off : Nat) (e : ICSEvent) :
    OverlayEvent × Nat :=
  let idp := if e.id ≠ "" then (e.id, off) else uuid g off
  ({ id := idp.1
     title := if e.summary ≠ "" then e.summary
              else if e.title ≠ "" then e.title else "Untitled"
     date := toISODateJS tz e.start
     startTime := formatTimeJS tz e.start
     endTime := match e.end_ with
       | some d => formatTimeJS tz d
       | none => ""
     notes := e.description
     url := e.url
     __overlay := true }, idp.2)

/-- `.map(...)` over the filtered events, threading the random stream. -/
def mapOverlays (tz : Int) (g : Nat → Nat) : Nat → List ICSEvent → List OverlayEvent
  | _, [] => []
  | off, e :: rest =>
    let oe := toOverlayEvent tz g off e
    oe.1 :: mapOverlays tz g oe.2 rest

/-- `filterEventsToMonth` from app.js: keep events whose start instant lies
in `[monthStart, monthEnd]`, then map them to overlay events. -/
def filterEventsToMonth (tz : Int) (g : Nat → Nat) (off : Nat)
    (evts : List ICSEvent) (year monthIndex : Int) : List OverlayEvent :=
  mapOverlays tz g off (evts.filter (keepsEvent year monthIndex))

/-! ### `getOverlay` and its cache (app.js lines 160 and 187–200)

The cache key `` `${key}|${fmtMonthKey(monthDate)}` `` is modelled as the
tuple `(key, year, monthIndex)`; the outcome of `fetchICS` (network fetch
plus parse) is an explicit `Except` input; the third component of the
result records whether the call attempted the fetch.
-/

/-- The in-session overlay cache (`OverlayCache = new Map()`). -/
abbrev OverlayCache := List ((String × Int × Int) × List OverlayEvent)

/-- `OverlayCache.get` / `has`. -/
def cacheFind (c : OverlayCache) (k : String × Int × Int) :
    Option (List OverlayEvent) :=
  (c.find? fun p => p.1 == k).map (fun p => p.2)

/-- `OverlayCache.set`. -/
def cacheSet (c : OverlayCache) (k : String × Int × Int)
    (v : List OverlayEvent) : OverlayCache := (k, v) :: c

/-- `getOverlay` from app.js: empty URL short-circuits, a cache hit returns
the memoized list, a miss fetches, filters, memoizes and returns, and a
fetch failure returns `[]` without touching the cache. -/
def getOverlay (cache : OverlayCache) (key url : String) (year monthIndex : Int)
    (fetchResult : Except Unit (List ICSEvent)) (tz : Int) (g : Nat → Nat)
    (off : Nat) : List OverlayEvent × OverlayCache × Bool :=
  if url = "" then ([], cache, false)
  else
    match cacheFind cache (key, year, monthIndex) with
    | some v => (v, cache, false)
    | none =>
      match fetchResult with
      | .ok raw =>
        let monthEvents := filterEventsToMonth tz g off raw year monthIndex
        (monthEvents, cacheSet cache (key, year, monthIndex) monthEvents, true)
      | .error _ => ([], cache, true)

/-! ### GitHub `putFile` — library variant (src/lib/github.js lines 70–105)
and the `window.GitHubAPI` variant (src/unnamed/part_002 lines 65–91)

HTTP responses are oracle inputs: the first PUT's response, the outcome of
the `getFile` re-fetch, and the retry PUT's response.  `putShas` records
the `sha` field sent on each PUT request, in order.
-/

/-- An HTTP response: status plus (abstracted) JSON payload. -/
structure HResp where
  status : Int
  payload : String
deriving DecidableEq, Repr

/-- `resp.ok`: status in `[200, 300)`. -/
def respOk (r : HResp) : Bool := 200 ≤ r.status && r.status < 300

/-- Result of a successful `getFile`: decoded content and blob sha. -/
structure GFile where
  content : String
  sha : String
deriving DecidableEq, Repr

/-- The distinct failure exits of `putFile`. -/
inductive PutError where
  | missingToken : PutError
  | putFailed : PutError
  | retryFailed : PutError
  | getFileFailed : PutError
deriving DecidableEq, Repr

/-- Observable outcome of a `putFile` call. -/
structure PutOutcome where
  result : Except PutError String
  putShas : List (Option String)
deriving Repr

/-- `if (sha) body.sha = sha` — the `sha` field of the PUT body. -/
def shaField (sha : Option String) : Option String :=
  match sha with
  | some s => if s = "" then none else some s
  | none => none

namespace GithubLib

/-- `putFile` from src/lib/github.js: on a 409/412 conflict it re-fetches
the file's sha via `getFile` and retries exactly once, throwing if the
retry also fails; any other non-ok response throws immediately. -/
def putFile (token : String) (sha : Option String) (resp : HResp)
    (gf : Except Unit (Option GFile)) (retryResp : HResp) : PutOutcome :=
  if token = "" then { result := .error .missingToken, putShas := [] }
  else
    let sha1 := shaField sha
    if respOk resp then { result := .ok resp.payload, putShas := [sha1] }
    else if resp.status = 409 ∨ resp.status = 412 then
      match gf with
      | .error _ => { result := .error .getFileFailed, putShas := [sha1] }
      | .ok existing =>
        let newSha : Option String := match existing with
          | some f => some f.sha
          | none => none
        let sha2 := match newSha with
          | some s => if s = "" then sha1 else some s
          | none => sha1
        if respOk retryResp then
          { result := .ok retryResp.payload, putShas := [sha1, sha2] }
        else { result := .error .retryFailed, putShas := [sha1, sha2] }
    else { result := .error .putFailed, putShas := [sha1] }

end GithubLib

namespace GithubWindow

/-- `putFile` from src/unnamed/part_002 (`window.GitHubAPI.putFile`, the
variant app.js and main.js actually call): a single PUT, throwing on any
non-ok response with no retry of any kind. -/
def putFile (token : String) (sha : Option String) (resp : HResp) : PutOutcome :=
  if token = "" then { result := .error .missingToken, putShas := [] }
  else
    let sha1 := shaField sha
    if respOk resp then { result := .ok resp.payload, putShas := [sha1] }
    else { result := .error .putFailed, putShas := [sha1] }

end GithubWindow

/-! ### ICS text utilities shared by the parsers

JS `String.prototype.replace` with a global regex performs a single
left-to-right scan without rescanning replacements; the recursions below
mirror that.
-/

/-- One global-replace pass removing `\r\n` followed by a space or tab
(`text.replace(/\r\n[ \t]/g, "")`). -/
def removeCRLFWS : List Char → List Char
  | '\r' :: '\n' :: c :: rest =>
    if c = ' ' ∨ c = '\t' then removeCRLFWS rest
    else '\r' :: removeCRLFWS ('\n' :: c :: rest)
  | c :: rest => c :: removeCRLFWS rest
  | [] => []

/-- One global-replace pass removing `\n` followed by a space or tab
(`text.replace(/\n[ \t]/g, "")`). -/
def removeLFWS : List Char → List Char
  | '\n' :: c :: rest =>
    if c = ' ' ∨ c = '\t' then removeLFWS rest
    else '\n' :: removeLFWS (c :: rest)
  | c :: rest => c :: removeLFWS rest
  | [] => []

/-- One global-replace pass removing `\r?\n` followed by a space or tab
(`text.replace(/\r?\n[ \t]/g, "")`, the `window.ICS` unfolding). -/
def unfoldW : List Char → List Char
  | '\r' :: '\n' :: c :: rest =>
    if c = ' ' ∨ c = '\t' then unfoldW rest
    else '\r' :: unfoldW ('\n' :: c :: rest)
  | '\n' :: c :: rest =>
    if c = ' ' ∨ c = '\t' then unfoldW rest
    else '\n' :: unfoldW (c :: rest)
  | c :: rest => c :: unfoldW rest
  | [] => []

/-- `text.split(/\r?\n/)` accumulator. -/
def splitLinesAux : List Char → List Char → List (List Char)
  | [], acc => [acc.reverse]
  | '\r' :: '\n' :: rest, acc => acc.reverse :: splitLinesAux rest []
  | '\n' :: rest, acc => acc.reverse :: splitLinesAux rest []
  | c :: rest, acc => splitLinesAux rest (c :: acc)

/-- `text.split(/\r?\n/)`. -/
def splitLines (cs : List Char) : List String :=
  (splitLinesAux cs []).map (fun l => String.mk l)

/-- Replace the first occurrence of the two-char pattern `a b` by `r`
(`String.prototype.replace` without the `g` flag). -/
def replaceFirst2 (a b r : Char) : List Char → List Char
  | x :: y :: rest =>
    if x = a ∧ y = b then r :: rest
    else x :: replaceFirst2 a b r (y :: rest)
  | l => l

/-- Replace every occurrence of the two-char pattern `a b` by `r` in one
left-to-right pass (`String.prototype.replace` with the `g` flag). -/
def replaceAll2 (a b r : Char) : List Char → List Char
  | x :: y :: rest =>
    if x = a ∧ y = b then r :: replaceAll2 a b r rest
    else x :: replaceAll2 a b r (y :: rest)
  | l => l

/-! ### The module ICS parser (src/unnamed/part_000 lines 5–61)

This is the ES-module `parseICS`: it validates `DTSTART`/`DTEND` against
the regex `^(\d{4})(\d{2})(\d{2})(T(\d{2})(\d{2})(\d{2})(Z)?)?$` and emits
a block's event iff `cur.SUMMARY || cur.URL || cur.DTSTART` is truthy.
-/

namespace IcsModule

/-- Numeric value of a run of digit characters (the `+` coercion applied
to a regex capture group). -/
def digitsVal (cs : List Char) : Int :=
  ((cs.foldl (fun a c => a * 10 + (c.toNat - 48)) 0 : Nat) : Int)

/-- The `parseDate` regex
`^(\d{4})(\d{2})(\d{2})(T(\d{2})(\d{2})(\d{2})(Z)?)?$`: date fields plus
optional time fields and UTC flag, or `none` when the value does not
match. -/
def matchICSDT (s : String) : Option (Int × Int × Int × Option (Int × Int × Int × Bool)) :=
  match s.toList with
  | [y1, y2, y3, y4, mo1, mo2, d1, d2] =>
    if [y1, y2, y3, y4, mo1, mo2, d1, d2].all Char.isDigit then
      some (digitsVal [y1, y2, y3, y4], digitsVal [mo1, mo2], digitsVal [d1, d2], none)
    else none
  | [y1, y2, y3, y4, mo1, mo2, d1, d2, t, h1, h2, mi1, mi2, s1, s2] =>
    if ([y1, y2, y3, y4, mo1, mo2, d1, d2, h1, h2, mi1, mi2, s1, s2].all Char.isDigit)
        ∧ t = 'T' then
      some (digitsVal [y1, y2, y3, y4], digitsVal [mo1, mo2], digitsVal [d1, d2],
        some (digitsVal [h1, h2], digitsVal [mi1, mi2], digitsVal [s1, s2], false))
    else none
  | [y1, y2, y3, y4, mo1, mo2, d1, d2, t, h1, h2, mi1, mi2, s1, s2, z] =>
    if ([y1, y2, y3, y4, mo1, mo2, d1, d2, h1, h2, mi1, mi2, s1, s2].all Char.isDigit)
        ∧ t = 'T' ∧ z = 'Z' then
      some (digitsVal [y1, y2, y3, y4], digitsVal [mo1, mo2], digitsVal [d1, d2],
        some (digitsVal [h1, h2], digitsVal [mi1, mi2], digitsVal [s1, s2], true))
    else none
  | _ => none

/-- `parseDate` from the module parser: `null` for a missing or empty
value, `null` for a non-matching value, otherwise a `Date` - UTC when the
`Z` suffix is present, local wall-clock time otherwise, midnight for a
date-only value. -/
def parseDate (tz : Int) (v : Option String) : Option Int :=
  match v with
  | none => none
  | some s =>
    if s = "" then none
    else match matchICSDT s with
      | none => none
      | some (y, mo, d, none) => some (jsDateLocal tz y (mo - 1) d 0 0 0)
      | some (y, mo, d, some (hh, mi, ss, z)) =>
        if z then some (jsDateUTC y (mo - 1) d hh mi ss)
        else some (jsDateLocal tz y (mo - 1) d hh mi ss)

/-- The `cur` record of the module parser.  The source stores every
property name on `cur`; only these five are ever read. -/
structure MCur where
  SUMMARY : Option String := none
  DTSTART : Option String := none
  DTEND : Option String := none
  URL : Option String := none
  DESCRIPTION : Option String := none
deriving DecidableEq, Repr

/-- A module-parser event (`{ summary, start, end, url, description }`). -/
structure MEvent where
  summary : String
  start : Option Int
  end_ : Option Int
  url : String
  description : String
deriving DecidableEq, Repr

/-- `parseLine`: split at the first colon into property name (upper-cased,
parameters after `;` stripped) and value. -/
def parseLine (line : String) : String × String :=
  let p1 := splitFirst ':' line.toList
  let value := p1.2.getD []
  let p2 := splitFirst ';' p1.1
  (String.mk (upperChars p2.1), String.mk value)

/-- The value unescaping applied before storing:
`.replace(/\\,/, ",").replace(/\\;/, ";").replace(/\\n/g, "\n")` (note the
first two lack the `g` flag in the source). -/
def unescapeValue (v : String) : String :=
  String.mk (replaceAll2 '\\' 'n' '\n'
    (replaceFirst2 '\\' ';' ';' (replaceFirst2 '\\' ',' ',' v.toList)))

/-- `cur[prop] = v` restricted to the five properties that are read. -/
def msetField (c : MCur) (prop v : String) : MCur :=
  if prop = "SUMMARY" then { c with SUMMARY := some v }
  else if prop = "DTSTART" then { c with DTSTART := some v }
  else if prop = "DTEND" then { c with DTEND := some v }
  else if prop = "URL" then { c with URL := some v }
  else if prop = "DESCRIPTION" then { c with DESCRIPTION := some v }
  else c

/-- The emission test at `END:VEVENT`:
`cur.SUMMARY || cur.URL || cur.DTSTART`. -/
def admits (c : MCur) : Bool :=
  truthyS c.SUMMARY || truthyS c.URL || truthyS c.DTSTART

/-- The event object pushed at `END:VEVENT`. -/
def mkMEvent (tz : Int) (c : MCur) : MEvent :=
  { summary := c.SUMMARY.getD ""
    start := parseDate tz c.DTSTART
    end_ := parseDate tz c.DTEND
    url := c.URL.getD ""
    description := c.DESCRIPTION.getD "" }

/-- The line loop of the module `parseICS`. -/
def mrun (tz : Int) : List String → Bool → MCur → List MEvent
  | [], _, _ => []
  | line :: rest, inEvent, cur =>
    if jsStartsWith line "BEGIN:VEVENT" then mrun tz rest true {}
    else if jsStartsWith line "END:VEVENT" then
      (if admits cur then [mkMEvent tz cur] else []) ++ mrun tz rest false {}
    else if inEvent then
      let pv := parseLine line
      mrun tz rest true (msetField cur pv.1 (unescapeValue pv.2))
    else mrun tz rest inEvent cur

/-- `unfold(text).split(/\r?\n/)` — unfolding is two sequential global
replaces in the module parser. -/
def icsLines (text : String) : List String :=
  splitLines (removeLFWS (removeCRLFWS text.toList))

/-- The module `parseICS` (the source wraps the list in `{ events }`). -/
def parseICS (tz : Int) (text : String) : List MEvent :=
  mrun tz (icsLines text) false {}

/-- Closed `BEGIN:VEVENT .. END:VEVENT` blocks of a line sequence, each
with the field values it populated — the spec-side notion of "block"
against which the parser's emission rule is compared.  An unmatched
`END:VEVENT` closes nothing and an unterminated block yields nothing. -/
def vEventBlocks : List String → Option MCur → List MCur
  | [], _ => []
  | line :: rest, ob =>
    if jsStartsWith line "BEGIN:VEVENT" then vEventBlocks rest (some {})
    else if jsStartsWith line "END:VEVENT" then
      match ob with
      | some c => c :: vEventBlocks rest none
      | none => vEventBlocks rest none
    else
      match ob with
      | some c =>
        let pv := parseLine line
        vEventBlocks rest (some (msetField c pv.1 (unescapeValue pv.2)))
      | none => vEventBlocks rest none

end IcsModule

/-! ### The `window.ICS` parser (src/unnamed/part_000 lines 62–167)

This is the variant app.js and main.js actually call.  It emits a block's
event iff `cur.DTSTART` is set, and its `parseDate` slices the value
without validating it, so a malformed value becomes an invalid `Date`
rather than an absent field.
-/

namespace IcsWindow

/-- `parseDate(value, params)` from the `window.ICS` parser.  An empty
value is `null`; `VALUE=DATE` parameters give a local midnight; otherwise
the value is sliced positionally (`Number` of a malformed slice is `NaN`,
producing an invalid `Date`), with a trailing `Z` (case-insensitive)
selecting UTC. -/
def parseDate (tz : Int) (value params : String) : Option JSDate :=
  if value = "" then none
  else if containsSub (upperChars params.toList) "VALUE=DATE".toList then
    some (mkLocalJS tz (jsNumber (jsSlice value 0 4))
      ((jsNumber (jsSlice value 4 6)).map (fun x => x - 1))
      (jsNumber (jsSlice value 6 8)) (some 0) (some 0) (some 0))
  else
    let y := jsNumber (jsSlice value 0 4)
    let mo := (jsNumber (jsSlice value 4 6)).map (fun x => x - 1)
    let d := jsNumber (jsSlice value 6 8)
    let hh := jsNumber (jsSlice value 9 11)
    let mi := jsNumber (jsSlice value 11 13)
    let ss := jsNumber (jsSlice value 13 15)
    if lastCharIs value 'Z' || lastCharIs value 'z' then
      some (mkUTCJS y mo d hh mi ss)
    else some (mkLocalJS tz y mo d hh mi ss)

/-- The `cur` record of the `window.ICS` parser (`DTSTART`/`DTEND` hold
parsed dates). -/
structure WCur where
  SUMMARY : Option String := none
  DESCRIPTION : Option String := none
  URL : Option String := none
  DTSTART : Option JSDate := none
  DTEND : Option JSDate := none
deriving Repr

/-- The per-line field assignment of the `window.ICS` parser: split
`name;params:value` at the first colon, dispatch on the upper-cased name;
`SUMMARY`/`DESCRIPTION` values get `\n` unescaping, `DTSTART`/`DTEND` are
parsed to dates. -/
def wSetField (tz : Int) (cur : WCur) (raw : String) : WCur :=
  match (splitFirst ':' raw.toList).2 with
  | none => cur
  | some afterColon =>
    let lhs := (splitFirst ':' raw.toList).1
    let value := String.mk afterColon
    let p2 := splitFirst ';' lhs
    let name := String.mk (upperChars p2.1)
    let params := String.mk (p2.2.getD [])
    if name = "SUMMARY" then
      { cur with SUMMARY := some (String.mk (replaceAll2 '\\' 'n' '\n' value.toList)) }
    else if name = "DESCRIPTION" then
      { cur with DESCRIPTION := some (String.mk (replaceAll2 '\\' 'n' '\n' value.toList)) }
    else if name = "URL" then { cur with URL := some value }
    else if name = "DTSTART" then { cur with DTSTART := parseDate tz value params }
    else if name = "DTEND" then { cur with DTEND := parseDate tz value params }
    else cur

/-- The line loop of the `window.ICS` `parseICS`: note the emission test is
`if (cur.DTSTART)` alone. -/
def wrun (tz : Int) : List String → Bool → WCur → List ICSEvent
  | [], _, _ => []
  | raw :: rest, inEvent, cur =>
    if raw = "BEGIN:VEVENT" then wrun tz rest true {}
    else if raw = "END:VEVENT" then
      (match cur.DTSTART with
       | some sd =>
         [{ summary := cur.SUMMARY.getD "", start := sd, end_ := cur.DTEND,
            description := cur.DESCRIPTION.getD "", url := cur.URL.getD "" }]
       | none => []) ++ wrun tz rest false {}
    else if inEvent then wrun tz rest true (wSetField tz cur raw)
    else wrun tz rest inEvent cur

/-- The `window.ICS` `parseICS`: unfold (single `\r?\n[ \t]` pass), split
into lines, run the loop. -/
def parseICS (tz : Int) (text : String) : List ICSEvent :=
  wrun tz (splitLines (unfoldW text.toList)) false {}

end IcsWindow

/-! ### Claim theorems: C1, C2, C5, C6, C7, C10 -/

/-- The module parser's loop emits exactly the admissible closed blocks, in
order, mapped to events — the refinement backing C5. -/
theorem mrun_eq_blocks (tz : Int) (lines : List String) :
    ∀ ob : Option IcsModule.MCur,
      IcsModule.mrun tz lines ob.isSome (ob.getD {})
        = ((IcsModule.vEventBlocks lines ob).filter IcsModule.admits).map
            (IcsModule.mkMEvent tz) := by
  induction lines with
  | nil => intro ob; rfl
  | cons line rest ih =>
    intro ob
    by_cases hb : jsStartsWith line "BEGIN:VEVENT" = true
    · have h1 : IcsModule.mrun tz (line :: rest) ob.isSome (ob.getD {})
          = IcsModule.mrun tz rest true {} := by
        simp [IcsModule.mrun, hb]
      have h2 : IcsModule.vEventBlocks (line :: rest) ob
          = IcsModule.vEventBlocks rest (some {}) := by
        simp [IcsModule.vEventBlocks, hb]
      rw [h1, h2]
      exact ih (some {})
    · by_cases he : jsStartsWith line "END:VEVENT" = true
      · have h1 : IcsModule.mrun tz (line :: rest) ob.isSome (ob.getD {})
            = (if IcsModule.admits (ob.getD {}) then
                [IcsModule.mkMEvent tz (ob.getD {})] else [])
              ++ IcsModule.mrun tz rest false {} := by
          simp [IcsModule.mrun, hb, he]
        cases ob with
        | none =>
          have h2 : IcsModule.vEventBlocks (line :: rest) none
              = IcsModule.vEventBlocks rest none := by
            simp [IcsModule.vEventBlocks, hb, he]
          rw [h1, h2]
          rw [show IcsModule.admits ((none : Option IcsModule.MCur).getD {}) = false
            from rfl]
          simpa using ih none
        | some c =>
          have h2 : IcsModule.vEventBlocks (line :: rest) (some c)
              = c :: IcsModule.vEventBlocks rest none := by
            simp [IcsModule.vEventBlocks, hb, he]
          rw [h1, h2, List.filter_cons]
          cases ha : IcsModule.admits c with
          | true =>
            simp only [Option.getD_some, ha, if_true, List.map_cons,
              List.singleton_append]
            exact congrArg _ (ih none)
          | false =>
            simp only [Option.getD_some, ha, Bool.false_eq_true, if_false,
              List.nil_append]
            exact ih none
      · cases ob with
        | none =>
          have h1 : IcsModule.mrun tz (line :: rest)
                (none : Option IcsModule.MCur).isSome
                ((none : Option IcsModule.MCur).getD {})
              = IcsModule.mrun tz rest false {} := by
            simp [IcsModule.mrun, hb, he]
          have h2 : IcsModule.vEventBlocks (line :: rest) none
              = IcsModule.vEventBlocks rest none := by
            simp [IcsModule.vEventBlocks, hb, he]
          rw [h1, h2]
          exact ih none
        | some c =>
          have h1 : IcsModule.mrun tz (line :: rest)
                (some c : Option IcsModule.MCur).isSome
                ((some c : Option IcsModule.MCur).getD {})
              = IcsModule.mrun tz rest true
                  (IcsModule.msetField c (IcsModule.parseLine line).1
                    (IcsModule.unescapeValue (IcsModule.parseLine line).2)) := by
            simp [IcsModule.mrun, hb, he]
          have h2 : IcsModule.vEventBlocks (line :: rest) (some c)
              = IcsModule.vEventBlocks rest
                  (some (IcsModule.msetField c (IcsModule.parseLine line).1
                    (IcsModule.unescapeValue (IcsModule.parseLine line).2))) := by
            simp [IcsModule.vEventBlocks, hb, he]
          rw [h1, h2]
          exact ih (some (IcsModule.msetField c (IcsModule.parseLine line).1
            (IcsModule.unescapeValue (IcsModule.parseLine line).2)))

/-- C5 (amended): the module-variant `parseICS` emits one event, in order,
for exactly those closed VEVENT blocks whose `SUMMARY`, `URL` or `DTSTART`
was populated with a non-empty value; blocks populating none of the three
are silently dropped.  (The `window.ICS` variant instead admits on
`DTSTART` alone — see the counterexample.) -/
theorem C5_module_admission (tz : Int) (text : String) :
    IcsModule.parseICS tz text
      = ((IcsModule.vEventBlocks (IcsModule.icsLines text) none).filter
          IcsModule.admits).map (IcsModule.mkMEvent tz) :=
  mrun_eq_blocks tz (IcsModule.icsLines text) none

/-- C5 counterexample: a block that populated `SUMMARY` (and neither `URL`
nor `DTSTART`) is emitted by the module parser but silently dropped by the
`window.ICS` parser that the apps call, refuting the claimed admission rule
for the latter. -/
theorem C5_counterexample :
    IcsWindow.parseICS 0 "BEGIN:VEVENT\nSUMMARY:Test\nEND:VEVENT" = [] ∧
    IcsModule.parseICS 0 "BEGIN:VEVENT\nSUMMARY:Test\nEND:VEVENT"
      = [{ summary := "Test", start := none, end_ := none, url := "",
           description := "" }] ∧
    (IcsModule.vEventBlocks
        (IcsModule.icsLines "BEGIN:VEVENT\nSUMMARY:Test\nEND:VEVENT") none).map
        IcsModule.admits = [true] := by
  refine ⟨by decide, by decide, by decide⟩

/-- C7 (amended): in the module-variant `parseDate`, any `DTSTART`/`DTEND`
value matching neither the 8-digit date pattern nor the date-time pattern
yields no date — the field stays `null` — and parsing is total. -/
theorem C7_module_parseDate_absent (tz : Int) (v : String)
    (h : IcsModule.matchICSDT v = none) :
    IcsModule.parseDate tz (some v) = none := by
  unfold IcsModule.parseDate
  by_cases hv : v = ""
  · simp [hv]
  · simp [hv, h]

/-- Witness for C7 on the non-matching value `"2024-07-04"`. -/
theorem C7_module_parseDate_witness :
    IcsModule.matchICSDT "2024-07-04" = none ∧
    IcsModule.parseDate 0 (some "2024-07-04") = none :=
  ⟨rfl, C7_module_parseDate_absent 0 "2024-07-04" rfl⟩

/-- C7 counterexample: in the `window.ICS` parser the non-matching value
`"GARBAGE"` does not leave the field absent — it becomes an invalid `Date`
and the event is even emitted. -/
theorem C7_counterexample :
    IcsModule.matchICSDT "GARBAGE" = none ∧
    IcsWindow.parseICS 0 "BEGIN:VEVENT\nDTSTART:GARBAGE\nEND:VEVENT"
      = [{ summary := "", start := JSDate.invalid, end_ := none, url := "",
           description := "" }] :=
  ⟨rfl, by decide⟩

/-- C1 (amended): `filterEventsToMonth` keeps exactly the events whose
start instant lies in the UTC window
`[Date.UTC(y, m, 1), Date.UTC(y, m + 1, 0, 23, 59, 59)]`, inclusive; the
claim's four July-2024 boundary examples hold in this UTC reading (i.e.
when the local offset is zero). -/
theorem C1_filter_utc_window (tz year monthIndex s : Int) (g : Nat → Nat)
    (off : Nat) (evts : List ICSEvent) (e : ICSEvent)
    (he : e.start = JSDate.valid s) :
    (keepsEvent year monthIndex e = true ↔
      monthStartI year monthIndex ≤ s ∧ s ≤ monthEndI year monthIndex) ∧
    filterEventsToMonth tz g off evts year monthIndex
      = mapOverlays tz g off (evts.filter (keepsEvent year monthIndex)) ∧
    keepsEvent 2024 6 { start := JSDate.valid (jsDateUTC 2024 6 1 0 0 0) } = true ∧
    keepsEvent 2024 6 { start := JSDate.valid (jsDateUTC 2024 6 31 23 59 0) } = true ∧
    keepsEvent 2024 6 { start := JSDate.valid (jsDateUTC 2024 5 30 23 59 0) } = false ∧
    keepsEvent 2024 6 { start := JSDate.valid (jsDateUTC 2024 7 1 0 0 0) } = false := by
  refine ⟨?_, rfl, by decide, by decide, by decide, by decide⟩
  unfold keepsEvent
  rw [he]
  simp

/-- Witness for C1 at a concrete mid-July instant. -/
theorem C1_filter_utc_window_witness :
    keepsEvent 2024 6 { start := JSDate.valid (jsDateUTC 2024 6 15 12 0 0) } = true ↔
      monthStartI 2024 6 ≤ jsDateUTC 2024 6 15 12 0 0 ∧
        jsDateUTC 2024 6 15 12 0 0 ≤ monthEndI 2024 6 :=
  (C1_filter_utc_window 0 2024 6 (jsDateUTC 2024 6 15 12 0 0) (fun _ => 0) 0 []
    { start := JSDate.valid (jsDateUTC 2024 6 15 12 0 0) } rfl).1

/-- C1 counterexample: at a +120-minute local offset (the app's
Europe/Amsterdam summer offset), an event starting July 1 2024 00:00 local
time is excluded from the July 2024 overlay, and one starting August 1
2024 00:00 local time is included — both contrary to the claim's
local-time reading. -/
theorem C1_counterexample :
    toISODateLocal 120 (jsDateLocal 120 2024 6 1 0 0 0) = "2024-07-01" ∧
    formatTimeHHMM 120 (jsDateLocal 120 2024 6 1 0 0 0) = "00:00" ∧
    filterEventsToMonth 120 (fun _ => 0) 0
        [{ start := JSDate.valid (jsDateLocal 120 2024 6 1 0 0 0),
           summary := "A" }] 2024 6 = [] ∧
    toISODateLocal 120 (jsDateLocal 120 2024 7 1 0 0 0) = "2024-08-01" ∧
    formatTimeHHMM 120 (jsDateLocal 120 2024 7 1 0 0 0) = "00:00" ∧
    (filterEventsToMonth 120 (fun _ => 0) 0
        [{ start := JSDate.valid (jsDateLocal 120 2024 7 1 0 0 0),
           summary := "B" }] 2024 6).length = 1 := by
  refine ⟨by decide, by decide, by decide, by decide, by decide, by decide⟩

/-- The map step of `filterEventsToMonth` is independent of the random
stream as long as every event already carries an id. -/
theorem mapOverlays_rng_free (tz : Int) (g1 g2 : Nat → Nat) :
    ∀ (l : List ICSEvent) (off1 off2 : Nat), (∀ e ∈ l, e.id ≠ "") →
      mapOverlays tz g1 off1 l = mapOverlays tz g2 off2 l := by
  intro l
  induction l with
  | nil => intro _ _ _; rfl
  | cons e rest ih =>
    intro off1 off2 h
    have hid : e.id ≠ "" := h e (List.mem_cons_self e rest)
    simp only [mapOverlays, toOverlayEvent, if_pos hid]
    exact congrArg _ (ih off1 off2 (fun x hx => h x (List.mem_cons_of_mem e hx)))

/-- C6 (amended): two runs of the overlay month mapping on identical inputs
agree as soon as every input event carries an id — the only
run-to-run difference is the `uuid()`-synthesized id for id-less events
(see the counterexample). -/
theorem C6_deterministic_given_ids (tz year monthIndex : Int)
    (g1 g2 : Nat → Nat) (off1 off2 : Nat) (evts : List ICSEvent)
    (hids : ∀ e ∈ evts, e.id ≠ "") :
    filterEventsToMonth tz g1 off1 evts year monthIndex
      = filterEventsToMonth tz g2 off2 evts year monthIndex := by
  unfold filterEventsToMonth
  exact mapOverlays_rng_free tz g1 g2 _ off1 off2
    (fun e he => hids e (List.mem_of_mem_filter he))

/-- Witness for C6: with ids present, runs over different random streams
and offsets coincide. -/
theorem C6_deterministic_witness :
    filterEventsToMonth 0 (fun n => n) 0
        [{ id := "evt-1", summary := "A",
           start := JSDate.valid (jsDateUTC 2024 6 10 12 0 0) }] 2024 6
      = filterEventsToMonth 0 (fun n => n + 5) 31
        [{ id := "evt-1", summary := "A",
           start := JSDate.valid (jsDateUTC 2024 6 10 12 0 0) }] 2024 6 :=
  C6_deterministic_given_ids 0 2024 6 (fun n => n) (fun n => n + 5) 0 31
    [{ id := "evt-1", summary := "A",
       start := JSDate.valid (jsDateUTC 2024 6 10 12 0 0) }] (by decide)

/-- C6 counterexample: an id-less parsed event (the normal case — the ICS
parsers never produce ids) gets a fresh random id on every run, so two
builds over the same inputs differ structurally: the second call reads the
random stream where the first left it (offset 31). -/
theorem C6_counterexample :
    filterEventsToMonth 0 (fun n => n) 0
        [{ summary := "A", start := JSDate.valid (jsDateUTC 2024 6 10 12 0 0) }]
        2024 6
      ≠ filterEventsToMonth 0 (fun n => n) 31
        [{ summary := "A", start := JSDate.valid (jsDateUTC 2024 6 10 12 0 0) }]
        2024 6 := by
  decide

/-- C2 (amended): the library `putFile` (src/lib/github.js) reacts to a
409/412 version conflict with exactly one retry carrying the re-fetched
sha, surfaces a retry failure as a thrown error, and never issues more
than two PUTs on any input; the `window.GitHubAPI.putFile` that the apps'
`saveMonth` actually calls performs no retry at all (see the
counterexample). -/
theorem C2_libPutFile_single_retry (token : String) (sha : Option String)
    (resp : HResp) (file : GFile) (retryResp : HResp)
    (htok : token ≠ "") (hconf : resp.status = 409 ∨ resp.status = 412)
    (hsha : file.sha ≠ "") :
    (GithubLib.putFile token sha resp (.ok (some file)) retryResp).putShas
        = [shaField sha, some file.sha] ∧
    (respOk retryResp = false →
      (GithubLib.putFile token sha resp (.ok (some file)) retryResp).result
        = .error PutError.retryFailed) ∧
    (respOk retryResp = true →
      (GithubLib.putFile token sha resp (.ok (some file)) retryResp).result
        = .ok retryResp.payload) ∧
    ∀ (t : String) (s2 : Option String) (r1 r2 : HResp)
      (gf : Except Unit (Option GFile)),
      (GithubLib.putFile t s2 r1 gf r2).putShas.length ≤ 2 := by
  have hnotok : respOk resp = false := by
    rcases hconf with h | h <;> unfold respOk <;> rw [h] <;> decide
  have hstep : GithubLib.putFile token sha resp (.ok (some file)) retryResp
      = if respOk retryResp then
          { result := .ok retryResp.payload,
            putShas := [shaField sha, some file.sha] }
        else
          { result := .error PutError.retryFailed,
            putShas := [shaField sha, some file.sha] } := by
    unfold GithubLib.putFile
    rw [if_neg htok, if_neg (by simp [hnotok]), if_pos hconf]
    simp [hsha]
  refine ⟨?_, ?_, ?_, ?_⟩
  · rw [hstep]; split <;> rfl
  · intro hr; rw [hstep, if_neg (by simp [hr])]
  · intro hr; rw [hstep, if_pos hr]
  · intro t s2 r1 r2 gf
    unfold GithubLib.putFile
    repeat' split
    all_goals simp

/-- Witness for C2: a concrete stale-sha write whose retry also conflicts
ends in a surfaced failure after exactly the two recorded PUTs. -/
theorem C2_libPutFile_witness :
    (GithubLib.putFile "tok" (some "stale") { status := 409, payload := "" }
        (.ok (some { content := "[]", sha := "fresh" }))
        { status := 409, payload := "" }).putShas
      = [shaField (some "stale"), some "fresh"] ∧
    (GithubLib.putFile "tok" (some "stale") { status := 409, payload := "" }
        (.ok (some { content := "[]", sha := "fresh" }))
        { status := 409, payload := "" }).result
      = .error PutError.retryFailed := by
  have h := C2_libPutFile_single_retry "tok" (some "stale")
    { status := 409, payload := "" } { content := "[]", sha := "fresh" }
    { status := 409, payload := "" } (by decide) (Or.inl rfl) (by decide)
  exact ⟨h.1, h.2.1 (by decide)⟩

/-- C2 counterexample: month files are written through
`window.GitHubAPI.putFile` (src/unnamed/part_002), which performs zero
retries on a 409 version conflict — it records a single PUT and throws
immediately, refuting "exactly one automatic retry". -/
theorem C2_counterexample :
    (GithubWindow.putFile "tok" (some "stale")
        { status := 409, payload := "conflict" }).putShas.length = 1 ∧
    (GithubWindow.putFile "tok" (some "stale")
        { status := 409, payload := "conflict" }).result
      = .error PutError.putFailed :=
  ⟨rfl, rfl⟩

/-- C10: `getOverlay` memoizes only successfully fetched results — on a
fetch failure it returns `[]` without writing a cache entry, so any later
call for the same `(sourceKey, month)` still attempts the fetch; on
success the filtered month events are written under the cache key. -/
theorem C10_overlay_cache (cache : OverlayCache) (key url : String)
    (year monthIndex tz : Int) (g : Nat → Nat) (off : Nat)
    (raw : List ICSEvent)
    (hurl : url ≠ "") (hmiss : cacheFind cache (key, year, monthIndex) = none) :
    getOverlay cache key url year monthIndex (.error ()) tz g off
        = ([], cache, true) ∧
    (∀ (f2 : Except Unit (List ICSEvent)) (tz2 : Int) (g2 : Nat → Nat)
        (off2 : Nat),
      (getOverlay cache key url year monthIndex f2 tz2 g2 off2).2.2 = true) ∧
    (getOverlay cache key url year monthIndex (.ok raw) tz g off).2.1
      = cacheSet cache (key, year, monthIndex)
          (filterEventsToMonth tz g off raw year monthIndex) ∧
    cacheFind ((getOverlay cache key url year monthIndex (.ok raw) tz g off).2.1)
        (key, year, monthIndex)
      = some (filterEventsToMonth tz g off raw year monthIndex) := by
  refine ⟨?_, ?_, ?_, ?_⟩
  · unfold getOverlay
    rw [if_neg hurl, hmiss]
  · intro f2 tz2 g2 off2
    unfold getOverlay
    rw [if_neg hurl, hmiss]
    cases f2 <;> rfl
  · unfold getOverlay
    rw [if_neg hurl, hmiss]
  · unfold getOverlay
    rw [if_neg hurl, hmiss]
    simp [cacheFind, cacheSet, List.find?]

/-- Witness for C10: a failed fetch on an empty cache returns `[]`, leaves
the cache empty, and a later call still attempts the fetch. -/
theorem C10_overlay_cache_witness :
    getOverlay [] "tripit" "https://example.com/cal.ics" 2024 6 (.error ()) 0
        (fun _ => 0) 0 = ([], [], true) ∧
    (getOverlay [] "tripit" "https://example.com/cal.ics" 2024 6
        (.ok []) 120 (fun _ => 0) 7).2.2 = true := by
  have h := C10_overlay_cache [] "tripit" "https://example.com/cal.ics" 2024 6 0
    (fun _ => 0) 0 [] (by decide) rfl
  exact ⟨h.1, h.2.1 (.ok []) 120 (fun _ => 0) 7⟩

end Cal

